import Mathlib

/-!
Formal model of the alerting / statistics core of the
ansible-ssh-backend-performance-benchmark-lab repository.

The definitions below are shallow embeddings of the Python source:

* `src/observability/alert_system.py` — `Alert`, `AlertRule.should_trigger`,
  `AlertRule.trigger`, `AlertManager._trigger_alert`,
  `AlertManager._process_alert_queue`, `AlertManager._cleanup_old_alerts`,
  `AlertManager.acknowledge_alert`, `AlertManager.resolve_alert`,
  and the default rule set of `AlertManager._load_rules`.
* `src/statistical_model/measurement_collector.py` —
  `ScientificMeasurementCollector._calculate_statistics`.
* `src/statistical_model/statistical_analyzer.py` —
  `SSHBenchmarkAnalyzer._calculate_descriptive_stats`.
* `src/observability/ansible_plugins/callback_benchmark.py` —
  `_calculate_std`.

Numbers (Python floats and ints) are modelled as exact rationals `ℚ`.
Standard deviations are computed in the source as `sqrt(variance)`; since
`sqrt` is injective and order preserving on nonnegative reals, every claim
about a standard deviation (equality, being zero, which denominator is
used) is stated here about its square, the variance, which is an exact
rational the source computes before taking the square root.
-/

namespace AlertBench

/-- Tags for the four helper functions that `AlertRule.should_trigger`
injects into the evaluation namespace (`avg`, `max`, `min`, `count`;
`max`/`min` are bound to the one-argument helpers `max_value`/`min_value`). -/
inductive FnTag where
  | avgF
  | maxF
  | minF
  | countF
deriving DecidableEq, Repr

/-- Python runtime values, restricted to the shapes that flow through
`should_trigger`: numbers, strings, booleans, lists, string-keyed dicts,
and the injected helper functions. -/
inductive Value where
  | num (q : ℚ)
  | str (s : String)
  | bool (b : Bool)
  | list (vs : List Value)
  | dict (entries : List (String × Value))
  | fn (t : FnTag)

/-- Python exceptions that condition evaluation can raise; all of them are
caught by the `except` clause of `should_trigger`. -/
inductive PyErr where
  | nameError (x : String)
  | typeError
  | attributeError
deriving DecidableEq, Repr

/-- The fragment of Python expressions used by the alert-rule conditions in
`AlertManager._load_rules`: numeric and string literals, the literals `[]`
and `\x7b\x7d`, bare names, `obj.get(key, dflt)`, comparisons `<` / `>`, and a
call `f(arg)` optionally carrying the keyword argument `default=`. -/
inductive Expr where
  | num (q : ℚ)
  | strLit (s : String)
  | emptyList
  | emptyDict
  | name (x : String)
  | getD (obj : Expr) (key : Expr) (dflt : Expr)
  | lt (a b : Expr)
  | gt (a b : Expr)
  | callKw (f : Expr) (arg : Expr) (kwDefault : Option Expr)
deriving Inhabited

/-- First-match lookup in an association list; models Python dict lookup
(the lists we build have their highest-precedence bindings first). -/
def envLookup : List (String × Value) → String → Option Value
  | [], _ => none
  | (k, v) :: rest, x => if k = x then some v else envLookup rest x

/-- A metric view: the dict passed to `should_trigger(metrics)`. -/
abbrev Metrics := List (String × Value)

/-- Python truthiness for the values we model (`bool(result)`). -/
def truthy : Value → Bool
  | .num q => q ≠ 0
  | .str s => s ≠ ""
  | .bool b => b
  | .list vs => !vs.isEmpty
  | .dict es => !es.isEmpty
  | .fn _ => true

/-- Extract a list of numbers, as Python `sum`/`max`/`min` demand of their
argument; any non-numeric element raises `TypeError`. -/
def asNums : List Value → Except PyErr (List ℚ)
  | [] => .ok []
  | .num q :: rest => do
      let qs ← asNums rest
      .ok (q :: qs)
  | _ :: _ => .error .typeError

/-- Apply one of the injected helper functions to a single positional
argument, mirroring the nested defs in `should_trigger`:
`avg` returns `sum/len` or `0` on empty, `max_value`/`min_value` return the
extremum or `0` on empty, `count` returns `len`. -/
def applyFn : FnTag → Value → Except PyErr Value
  | .avgF, .list vs =>
      if vs.isEmpty then .ok (.num 0)
      else do
        let qs ← asNums vs
        .ok (.num (qs.sum / qs.length))
  | .maxF, .list vs =>
      if vs.isEmpty then .ok (.num 0)
      else do
        let qs ← asNums vs
        .ok (.num (qs.foldl max (qs.headI)))
  | .minF, .list vs =>
      if vs.isEmpty then .ok (.num 0)
      else do
        let qs ← asNums vs
        .ok (.num (qs.foldl min (qs.headI)))
  | .countF, .list vs => .ok (.num vs.length)
  | .countF, .str s => .ok (.num s.length)
  | .countF, .dict es => .ok (.num es.length)
  | _, _ => .error .typeError

/-- Evaluate an expression in an environment, mirroring
`eval(self.condition, dict--builtins-empty--, local_vars)`:
a name absent from `local_vars` raises `NameError` (the globals dict holds
only an empty `__builtins__`), `obj.get` demands a dict receiver
(`AttributeError` otherwise), comparisons demand numbers, and calling a
helper with a `default=` keyword raises `TypeError` (the helpers accept a
single positional argument). -/
def evalExpr (env : List (String × Value)) : Expr → Except PyErr Value
  | .num q => .ok (.num q)
  | .strLit s => .ok (.str s)
  | .emptyList => .ok (.list [])
  | .emptyDict => .ok (.dict [])
  | .name x =>
      match envLookup env x with
      | some v => .ok v
      | none => .error (.nameError x)
  | .getD obj key dflt => do
      let o ← evalExpr env obj
      match o with
      | .dict entries => do
          let k ← evalExpr env key
          let d ← evalExpr env dflt
          match k with
          | .str ks => .ok ((envLookup entries ks).getD d)
          | _ => .ok d
      | _ => .error .attributeError
  | .lt a b => do
      let va ← evalExpr env a
      let vb ← evalExpr env b
      match va, vb with
      | .num qa, .num qb => .ok (.bool (decide (qa < qb)))
      | _, _ => .error .typeError
  | .gt a b => do
      let va ← evalExpr env a
      let vb ← evalExpr env b
      match va, vb with
      | .num qa, .num qb => .ok (.bool (decide (qb < qa)))
      | _, _ => .error .typeError
  | .callKw f arg kwDefault => do
      let vf ← evalExpr env f
      let va ← evalExpr env arg
      match vf with
      | .fn t =>
          match kwDefault with
          | some d => do
              let _ ← evalExpr env d
              .error .typeError
          | none => applyFn t va
      | _ => .error .typeError

/-- The evaluation environment `should_trigger` builds:
`local_vars = dict of metrics, then 'time', then the four helpers`,
where a later insertion overwrites an earlier one — so helpers take
precedence over `'time'`, which takes precedence over metric keys.
Note that no binding named `metrics` is created: the metric keys are
spread directly into the namespace. -/
def buildEnv (metrics : Metrics) (now : ℚ) : List (String × Value) :=
  [("avg", .fn .avgF), ("max", .fn .maxF), ("min", .fn .minF),
   ("count", .fn .countF), ("time", .num now)] ++ metrics

/-- One alert rule, mirroring the Python `AlertRule` object: its
configuration fields plus the mutable `last_triggered` timestamp.
`condition_src` carries the Python source text of the condition (used only
to build alert messages); `condition` is its parsed form. -/
structure AlertRule where
  name : String
  condition : Expr
  condition_str : String
  severity : String
  actions : List String
  cooldown_seconds : ℚ
  last_triggered : Option ℚ := none
deriving Inhabited

/-- `AlertRule.should_trigger(metrics)`: evaluate the condition (any
exception is caught and yields `False`); if the result is truthy and
`self.last_triggered` is truthy (a Python float is falsy exactly when it
is `0`) and `now - last_triggered < cooldown_seconds`, return `False`;
otherwise return `bool(result)`.  The single `now` stands for the
`time.time()` calls made during the evaluation. -/
def should_trigger (r : AlertRule) (metrics : Metrics) (now : ℚ) : Bool :=
  match evalExpr (buildEnv metrics now) r.condition with
  | .error _ => false
  | .ok v =>
      if truthy v then
        match r.last_triggered with
        | some t => if t ≠ 0 ∧ now - t < r.cooldown_seconds then false else true
        | none => true
      else false

/-- `AlertRule.trigger()`: set `last_triggered` to the current time. -/
def trigger (r : AlertRule) (now : ℚ) : AlertRule :=
  { r with last_triggered := some now }

/-- Shorthand for the `metrics.get('key', dflt)` pattern every default
condition uses: attribute access `.get` on the bare name `metrics`. -/
def metricsGet (key : String) (dflt : Expr) : Expr :=
  .getD (.name "metrics") (.strLit key) dflt

/-- The ten default rules installed by `AlertManager._load_rules`
(the method ignores the configuration file and always installs these). -/
def default_rules : List AlertRule :=
  [ { name := "high_cpu_usage"
      condition := .gt (metricsGet "cpu_percent_total" (.num 0)) (.num 90)
      condition_str := "metrics.get('cpu_percent_total', 0) > 90"
      severity := "warning", actions := ["console", "email"]
      cooldown_seconds := 300 },
    { name := "high_memory_usage"
      condition := .gt (metricsGet "memory_used_percent" (.num 0)) (.num 95)
      condition_str := "metrics.get('memory_used_percent', 0) > 95"
      severity := "critical", actions := ["console", "email"]
      cooldown_seconds := 300 },
    { name := "high_error_rate"
      condition := .gt (metricsGet "error_rate" (.num 0)) (.num 10)
      condition_str := "metrics.get('error_rate', 0) > 10"
      severity := "warning", actions := ["console", "slack"]
      cooldown_seconds := 60 },
    { name := "slow_ssh_connections"
      condition := .gt (metricsGet "ssh_connection_time_avg_ms" (.num 0)) (.num 2000)
      condition_str := "metrics.get('ssh_connection_time_avg_ms', 0) > 2000"
      severity := "warning", actions := ["console"]
      cooldown_seconds := 60 },
    { name := "container_unreachable"
      condition := .gt (metricsGet "unreachable_containers" (.num 0)) (.num 0)
      condition_str := "metrics.get('unreachable_containers', 0) > 0"
      severity := "critical", actions := ["console", "email", "slack"]
      cooldown_seconds := 30 },
    { name := "low_disk_space"
      condition := .lt (metricsGet "disk_free_percent" (.num 100)) (.num 10)
      condition_str := "metrics.get('disk_free_percent', 100) < 10"
      severity := "warning", actions := ["console", "email"]
      cooldown_seconds := 3600 },
    { name := "high_temperature"
      condition := .gt (.callKw (.name "max")
        (.getD (metricsGet "temperatures" .emptyDict) (.strLit "core") .emptyList)
        (some (.num 0))) (.num 85)
      condition_str :=
        "max(metrics.get('temperatures', \x7b\x7d).get('core', []), default=0) > 85"
      severity := "warning", actions := ["console"]
      cooldown_seconds := 300 },
    { name := "network_packet_loss"
      condition := .gt (metricsGet "network_packet_loss_percent" (.num 0)) (.num 5)
      condition_str := "metrics.get('network_packet_loss_percent', 0) > 5"
      severity := "warning", actions := ["console", "email"]
      cooldown_seconds := 60 },
    { name := "benchmark_timeout"
      condition := .gt (metricsGet "benchmark_duration_seconds" (.num 0)) (.num 3600)
      condition_str := "metrics.get('benchmark_duration_seconds', 0) > 3600"
      severity := "info", actions := ["console"]
      cooldown_seconds := 3600 },
    { name := "high_variance"
      condition := .gt (metricsGet "coefficient_of_variation" (.num 0)) (.num 20)
      condition_str := "metrics.get('coefficient_of_variation', 0) > 20"
      severity := "warning", actions := ["console"]
      cooldown_seconds := 300 } ]

/-- One alert, mirroring the Python `Alert` dataclass field for field.
It has no `actions` field: the dataclass in the source stores none. -/
structure Alert where
  id : String
  severity : String
  title : String
  message : String
  timestamp : ℚ
  source : String
  metrics : Metrics
  acknowledged : Bool := false
  resolved : Bool := false

/-- Python `int()` applied to a float: truncation toward zero. -/
def pyInt (t : ℚ) : ℤ :=
  if 0 ≤ t then ⌊t⌋ else ⌈t⌉

/-- The alert id built by `_trigger_alert`:
the f-string `rule.name + underscore + int(time.time())`. -/
def mkAlertId (ruleName : String) (now : ℚ) : String :=
  ruleName ++ "_" ++ toString (pyInt now)

/-- Python `str.title()` on space-separated lowercase-alphabetic words
(the only strings the source applies it to): capitalize each word. -/
def pyTitle (s : String) : String :=
  String.intercalate " " ((s.splitOn " ").map (fun w => w.toLower.capitalize))

/-- `AlertManager._trigger_alert(rule, metrics)`: construct the `Alert`,
whose id is the rule name plus the trigger time in whole seconds.  The
single `now` stands for both the `time.time()` call that stamps the id and
the `datetime.now()` call that stamps `timestamp`. -/
def _trigger_alert (r : AlertRule) (metrics : Metrics) (now : ℚ) : Alert :=
  { id := mkAlertId r.name now
    severity := r.severity
    title := r.severity.toUpper ++ ": " ++ pyTitle (r.name.replace "_" " ")
    message := "Alert triggered by rule: " ++ r.name ++ "\nCondition: " ++ r.condition_str
    timestamp := now
    source := "alert_manager"
    metrics := metrics }

/-- The body of the rule loop in `AlertManager._monitoring_loop` for one
rule: if `should_trigger`, create the alert (`_trigger_alert`) and mark
the rule triggered (`rule.trigger()`); otherwise leave both alone. -/
def monitorRuleStep (metrics : Metrics) (now : ℚ) (r : AlertRule) :
    Option Alert × AlertRule :=
  if should_trigger r metrics now then
    (some (_trigger_alert r metrics now), trigger r now)
  else
    (none, r)

/-- One pass of the rule loop over the whole rule list: the alerts created
(in rule order) and the updated rules. -/
def evalRulesStep (metrics : Metrics) (now : ℚ) (rules : List AlertRule) :
    List Alert × List AlertRule :=
  (rules.filterMap (fun r => (monitorRuleStep metrics now r).1),
   rules.map (fun r => (monitorRuleStep metrics now r).2))

/-- A run of the monitoring loop: a sequence of evaluation passes, each at
one instant with one metric view, collecting every alert created during
the whole run. -/
def runSteps : List (ℚ × Metrics) → List AlertRule → List Alert
  | [], _ => []
  | (now, metrics) :: rest, rules =>
      (evalRulesStep metrics now rules).1 ++
        runSteps rest (evalRulesStep metrics now rules).2

/-- Predicate for the action names the `if`/`elif` chain of
`_process_alert_queue` dispatches on; any other name is silently skipped. -/
def knownChannel (action : String) : Bool :=
  action == "console" || action == "email" || action == "slack"

/-- `AlertManager._process_alert_queue`: drain the queue and, for every
drained alert, invoke one notification channel per action name in
`self.rules[0].actions` — the action list of the FIRST CONFIGURED RULE,
not of the rule that triggered the alert.  The result is the list of
channel invocations as `(channel, alert id)` pairs, in execution order.
(The source indexes `self.rules[0]` unconditionally; the manager always
holds the ten default rules, so the list is never empty — the `[]` branch
here is unreachable in the program.) -/
def _process_alert_queue (rules : List AlertRule) (queued : List Alert) :
    List (String × String) :=
  queued.flatMap (fun a =>
    match rules with
    | [] => []
    | r0 :: _ => (r0.actions.filter knownChannel).map (fun act => (act, a.id)))

/-- Python slicing `l[-m:]` for a nonnegative `m`: the last `m` elements —
except that for `m = 0` it is the WHOLE list (`l[-0:]` is `l[0:]`). -/
def pySliceLast (m : ℕ) (l : List α) : List α :=
  if m = 0 then l else l.drop (l.length - m)

/-- The first statement of `AlertManager._cleanup_old_alerts`: keep the
alerts with `timestamp > cutoff_date` (inside the retention window). -/
def retentionFilter (cutoff : ℚ) (alerts : List Alert) : List Alert :=
  alerts.filter (fun a => decide (cutoff < a.timestamp))

/-- The second statement of `AlertManager._cleanup_old_alerts`: if more
than `max_alerts` alerts remain, keep `alerts[-max_alerts:]`. -/
def maxTrim (max_alerts : ℕ) (alerts : List Alert) : List Alert :=
  if max_alerts < alerts.length then pySliceLast max_alerts alerts else alerts

/-- `AlertManager._cleanup_old_alerts`: the retention filter followed by
the max-count trim. -/
def _cleanup_old_alerts (cutoff : ℚ) (max_alerts : ℕ) (alerts : List Alert) :
    List Alert :=
  maxTrim max_alerts (retentionFilter cutoff alerts)

/-- `AlertManager.acknowledge_alert(alert_id)`: walk `self.alerts`, set
`acknowledged = True` on the first alert whose id matches and return
`True`; return `False` if none matches.  The pair is (returned bool,
alert list after the call). -/
def acknowledge_alert : List Alert → String → Bool × List Alert
  | [], _ => (false, [])
  | a :: rest, alert_id =>
      if a.id = alert_id then
        (true, { a with acknowledged := true } :: rest)
      else
        let r := acknowledge_alert rest alert_id
        (r.1, a :: r.2)

/-- `AlertManager.resolve_alert(alert_id)`: same walk, setting
`resolved = True` on the first alert whose id matches. -/
def resolve_alert : List Alert → String → Bool × List Alert
  | [], _ => (false, [])
  | a :: rest, alert_id =>
      if a.id = alert_id then
        (true, { a with resolved := true } :: rest)
      else
        let r := resolve_alert rest alert_id
        (r.1, a :: r.2)

/-! ### Statistics aggregation functions

The three source functions take a numeric series; we model the series as
`List ℚ` and each standard deviation by its square (the variance), see the
file comment. -/

/-- Arithmetic mean, `statistics.mean` / `np.mean` / `sum(v)/len(v)`. -/
def listMean (xs : List ℚ) : ℚ :=
  xs.sum / xs.length

/-- Sum of squared deviations from the mean, the shared numerator of every
variance in the source. -/
def sumSqDev (xs : List ℚ) : ℚ :=
  (xs.map (fun x => (x - listMean xs) ^ 2)).sum

/-- The square of `statistics.stdev(values)` (Python's SAMPLE standard
deviation): sum of squared deviations divided by `n - 1`. -/
def stdevSq (xs : List ℚ) : ℚ :=
  sumSqDev xs / ((xs.length : ℚ) - 1)

/-- The square of `np.std(data)` (numpy's default POPULATION standard
deviation, `ddof=0`): sum of squared deviations divided by `n`. -/
def npStdSq (xs : List ℚ) : ℚ :=
  sumSqDev xs / (xs.length : ℚ)

/-- The square of `_calculate_std(values)` from `callback_benchmark.py`:
`0` for fewer than two values, else `variance = sum((x-mean)**2)/len(values)`
(a POPULATION variance), of which the function returns `variance ** 0.5`. -/
def _calculate_std_sq (xs : List ℚ) : ℚ :=
  if xs.length < 2 then 0 else sumSqDev xs / (xs.length : ℚ)

/-- Median of a series, `statistics.median` / `np.median`: middle element
of the sorted series, or the mean of the two middle elements. -/
def listMedian (xs : List ℚ) : ℚ :=
  let sorted := xs.mergeSort (fun a b => decide (a ≤ b))
  if xs.length % 2 = 1 then sorted.getD (xs.length / 2) 0
  else (sorted.getD (xs.length / 2 - 1) 0 + sorted.getD (xs.length / 2) 0) / 2

/-- Minimum of a series (`min(values)`; total here, `0` on empty, but only
applied under a length guard in the source). -/
def listMin : List ℚ → ℚ
  | [] => 0
  | x :: rest => rest.foldl min x

/-- Maximum of a series (`max(values)`). -/
def listMax : List ℚ → ℚ
  | [] => 0
  | x :: rest => rest.foldl max x

/-- The per-series statistics dict built by
`ScientificMeasurementCollector._calculate_statistics`, with the two
standard-deviation-valued entries (`std_dev`, `cv_percent`) modelled by
their squares. -/
structure SeriesStats where
  count : ℕ
  mean : ℚ
  median : ℚ
  std_dev_sq : ℚ
  min : ℚ
  max : ℚ
  cv_percent_sq : ℚ

/-- The body of the per-series loop of `_calculate_statistics`: statistics
are computed only when `len(values) > 1`; a singleton or empty series gets
NO entry in the result dict.  `cv_percent` is
`stdev(values)/mean(values)*100` when the mean is nonzero and `0`
otherwise; its square is `stdevSq/mean^2*10000`. -/
def _calculate_statistics_entry (values : List ℚ) : Option SeriesStats :=
  if 1 < values.length then
    some
      { count := values.length
        mean := listMean values
        median := listMedian values
        std_dev_sq := stdevSq values
        min := listMin values
        max := listMax values
        cv_percent_sq :=
          if listMean values ≠ 0 then stdevSq values / (listMean values) ^ 2 * 10000
          else 0 }
  else none

/-- The statistics dict built by
`SSHBenchmarkAnalyzer._calculate_descriptive_stats` (the fields not
depending on percentiles), with `std` and `cv_percent` modelled by their
squares; `std` is `np.std(data)`, a POPULATION standard deviation. -/
structure DescStats where
  n : ℕ
  mean : ℚ
  median : ℚ
  std_sq : ℚ
  min : ℚ
  max : ℚ
  range : ℚ
  cv_percent_sq : ℚ

/-- `_calculate_descriptive_stats(data)`: returns the empty dict (here
`none`) when `len(data) < 2`, else the statistics dict with
`std = np.std(data)` and `cv_percent = (np.std/np.mean)*100` when the mean
is nonzero, `0` otherwise. -/
def _calculate_descriptive_stats (data : List ℚ) : Option DescStats :=
  if data.length < 2 then none
  else
    some
      { n := data.length
        mean := listMean data
        median := listMedian data
        std_sq := npStdSq data
        min := listMin data
        max := listMax data
        range := listMax data - listMin data
        cv_percent_sq :=
          if listMean data ≠ 0 then npStdSq data / (listMean data) ^ 2 * 10000
          else 0 }

/-! ### Helper lemmas about the statistics functions -/

/-- Mean of a constant series is the constant. -/
lemma listMean_replicate (n : ℕ) (x : ℚ) (hn : 0 < n) :
    listMean (List.replicate n x) = x := by
  have hn0 : (n : ℚ) ≠ 0 := by exact_mod_cast hn.ne'
  simp only [listMean, List.sum_replicate, List.length_replicate, nsmul_eq_mul]
  field_simp

/-- A constant series has zero sum of squared deviations. -/
lemma sumSqDev_replicate (n : ℕ) (x : ℚ) (hn : 0 < n) :
    sumSqDev (List.replicate n x) = 0 := by
  simp [sumSqDev, listMean_replicate n x hn, List.map_replicate]

/-- Claim-facing demonstration rule for witnesses: the `cpu_high` scenario
rule of the specification, whose condition is a direct metric-name lookup
and therefore actually evaluable in the environment `should_trigger`
builds. -/
def cpu_high_rule : AlertRule :=
  { name := "cpu_high"
    condition := .gt (.name "cpu") (.num 90)
    condition_str := "cpu > 90"
    severity := "warning"
    actions := ["console"]
    cooldown_seconds := 300 }

/-! ### Claim theorems -/

/-- Claim C4, counterexample: `_calculate_std` of `callback_benchmark.py`
on the series `[0, 2]` returns the population standard deviation `1`
(variance `1`), not the sample standard deviation `sqrt 2`
(variance `2`): its variance differs from the sample variance, so the
standard deviations differ.  The analyzer's `np.std` agrees with the
population value and disagrees with the sample value as well. -/
theorem C4_counterexample :
    _calculate_std_sq [(0 : ℚ), 2] = 1
    ∧ npStdSq [(0 : ℚ), 2] = 1
    ∧ stdevSq [(0 : ℚ), 2] = 2
    ∧ _calculate_std_sq [(0 : ℚ), 2] ≠ stdevSq [(0 : ℚ), 2] := by
  refine ⟨?_, ?_, ?_, ?_⟩ <;>
    norm_num [_calculate_std_sq, npStdSq, stdevSq, sumSqDev, listMean]

/-- Claim C4, amended: only `measurement_collector.py` uses the sample
standard deviation (denominator `n - 1`, via `statistics.stdev`); both
`statistical_analyzer.py` (`np.std`) and `callback_benchmark.py`
(`_calculate_std`) use the population standard deviation (denominator
`n`), and the two notions genuinely differ on every series of length at
least 2 whose values are not all equal. -/
theorem C4_std_denominators (xs : List ℚ) (h : 2 ≤ xs.length) :
    stdevSq xs * ((xs.length : ℚ) - 1) = sumSqDev xs
    ∧ npStdSq xs * (xs.length : ℚ) = sumSqDev xs
    ∧ _calculate_std_sq xs = npStdSq xs
    ∧ (_calculate_descriptive_stats xs).map (·.std_sq) = some (npStdSq xs)
    ∧ (sumSqDev xs ≠ 0 → _calculate_std_sq xs ≠ stdevSq xs) := by
  have hlen0 : (0 : ℚ) < (xs.length : ℚ) := by exact_mod_cast Nat.lt_of_lt_of_le Nat.zero_lt_two h
  have hlen1 : (xs.length : ℚ) - 1 ≠ 0 := by
    have h2 : (2 : ℚ) ≤ (xs.length : ℚ) := by exact_mod_cast h
    intro hc
    linarith
  refine ⟨div_mul_cancel₀ _ hlen1, div_mul_cancel₀ _ hlen0.ne', ?_, ?_, ?_⟩
  · simp [_calculate_std_sq, npStdSq, Nat.not_lt.mpr h]
  · simp [_calculate_descriptive_stats, Nat.not_lt.mpr h]
  · intro hssd heq
    rw [_calculate_std_sq, if_neg (Nat.not_lt.mpr h), stdevSq,
      div_eq_div_iff hlen0.ne' hlen1] at heq
    exact hssd (by linear_combination -heq)

/-- Claim C4, witness for `C4_std_denominators` at the series `[0, 2]`. -/
theorem C4_std_denominators_witness :
    2 ≤ ([(0 : ℚ), 2]).length
    ∧ (stdevSq [(0 : ℚ), 2] * ((([(0 : ℚ), 2]).length : ℚ) - 1) = sumSqDev [(0 : ℚ), 2]
        ∧ npStdSq [(0 : ℚ), 2] * (([(0 : ℚ), 2]).length : ℚ) = sumSqDev [(0 : ℚ), 2]
        ∧ _calculate_std_sq [(0 : ℚ), 2] = npStdSq [(0 : ℚ), 2]
        ∧ (_calculate_descriptive_stats [(0 : ℚ), 2]).map (·.std_sq) = some (npStdSq [(0 : ℚ), 2])
        ∧ (sumSqDev [(0 : ℚ), 2] ≠ 0 →
            _calculate_std_sq [(0 : ℚ), 2] ≠ stdevSq [(0 : ℚ), 2])) :=
  ⟨by decide, C4_std_denominators [(0 : ℚ), 2] (by decide)⟩

/-- Claim C5, counterexample: for the singleton series `[5]`,
`_calculate_statistics` reports NOTHING — the per-series guard
`len(values) > 1` skips the series entirely — so no stddev entry (in
particular, not the value `0`) is reported for a singleton series. -/
theorem C5_counterexample :
    _calculate_statistics_entry [(5 : ℚ)] = none := rfl

/-- Claim C5, amended: within `_calculate_statistics`, `cv_percent` is
`stdev/mean*100` with `0` when the mean is `0`, and every constant series
of length at least 2 gets `cv_percent = 0` (and `std_dev = 0`); but a
singleton (or empty) series produces NO statistics entry at all rather
than a reported stddev of `0`. -/
theorem C5_cv_constant_and_singleton (x : ℚ) (n : ℕ) (hn : 2 ≤ n)
    (xs : List ℚ) (hxs : xs.length ≤ 1) :
    (_calculate_statistics_entry (List.replicate n x)).map (·.cv_percent_sq) = some 0
    ∧ (_calculate_statistics_entry (List.replicate n x)).map (·.std_dev_sq) = some 0
    ∧ (∀ ys : List ℚ, 1 < ys.length →
        (_calculate_statistics_entry ys).map (·.cv_percent_sq)
          = some (if listMean ys = 0 then 0 else stdevSq ys / (listMean ys) ^ 2 * 10000))
    ∧ _calculate_statistics_entry xs = none := by
  have hn1 : 1 < (List.replicate n x).length := by
    simpa using Nat.lt_of_lt_of_le Nat.one_lt_two hn
  have hvar : stdevSq (List.replicate n x) = 0 := by
    rw [stdevSq, sumSqDev_replicate n x (Nat.lt_of_lt_of_le Nat.zero_lt_two hn), zero_div]
  refine ⟨?_, ?_, ?_, ?_⟩
  · simp only [_calculate_statistics_entry, if_pos hn1, Option.map_some]
    by_cases hmean : listMean (List.replicate n x) = 0 <;> simp [hmean, hvar]
  · simp only [_calculate_statistics_entry, if_pos hn1, Option.map_some]
    simp [hvar]
  · intro ys hys
    simp only [_calculate_statistics_entry, if_pos hys, Option.map_some]
    by_cases hmean : listMean ys = 0 <;> simp [hmean]
  · simp [_calculate_statistics_entry, Nat.not_lt.mpr hxs]

/-- Claim C5, witness for `C5_cv_constant_and_singleton` at the constant
series `[4, 4, 4]` and the singleton `[7]`. -/
theorem C5_witness :
    (2 ≤ 3 ∧ ([(7 : ℚ)]).length ≤ 1)
    ∧ ((_calculate_statistics_entry (List.replicate 3 (4 : ℚ))).map (·.cv_percent_sq) = some 0
        ∧ (_calculate_statistics_entry (List.replicate 3 (4 : ℚ))).map (·.std_dev_sq) = some 0
        ∧ (∀ ys : List ℚ, 1 < ys.length →
            (_calculate_statistics_entry ys).map (·.cv_percent_sq)
              = some (if listMean ys = 0 then 0 else stdevSq ys / (listMean ys) ^ 2 * 10000))
        ∧ _calculate_statistics_entry [(7 : ℚ)] = none) :=
  ⟨⟨by decide, by decide⟩,
    C5_cv_constant_and_singleton 4 3 (by decide) [(7 : ℚ)] (by decide)⟩

/-- Claim C3 (code bug): `should_trigger` spreads the metric keys directly
into the evaluation namespace and never binds a name `metrics`, yet every
default condition reads its key through `metrics.get(...)`; evaluating the
first default rule's condition therefore raises `NameError` — whether or
not the queried key is present in the metric view — and the rule is
discarded by the exception handler instead of its missing keys being
resolved to a neutral default by a completed evaluation. -/
theorem C3_condition_raises_nameError :
    evalExpr (buildEnv [] 0) (default_rules.headI).condition
      = .error (.nameError "metrics")
    ∧ evalExpr (buildEnv [("cpu_percent_total", Value.num 95)] 0)
        (default_rules.headI).condition = .error (.nameError "metrics")
    ∧ should_trigger default_rules.headI [("cpu_percent_total", Value.num 95)] 0 = false :=
  ⟨rfl, rfl, rfl⟩

/-- Claim C1 (code bug): `_process_alert_queue` reads the action list from
`self.rules[0]` — the first CONFIGURED rule — instead of from the rule
that triggered the drained alert (the `Alert` dataclass stores no action
list at all); an alert triggered by the third default rule
`high_error_rate`, whose actions are `console` and `slack`, is dispatched
to `console` and `email`, the first rule's actions. -/
theorem C1_dispatch_uses_first_rule_actions :
    (default_rules.getD 2 default).name = "high_error_rate"
    ∧ (default_rules.getD 2 default).actions = ["console", "slack"]
    ∧ (default_rules.headI).actions = ["console", "email"]
    ∧ _process_alert_queue default_rules
        [_trigger_alert (default_rules.getD 2 default) [] 100]
      = [("console", "high_error_rate_100"), ("email", "high_error_rate_100")] :=
  ⟨rfl, rfl, rfl, rfl⟩

/-- Claim C2: a rule whose condition evaluates truthy while the rule is
within its cooldown window (`now - last_triggered < cooldown_seconds`,
with `last_triggered` set — trigger times are positive) is suppressed:
the monitoring-loop body emits no alert and returns the rule unchanged,
so the suppressed evaluation does not refresh `last_triggered`. -/
theorem C2_cooldown_suppresses (r : AlertRule) (metrics : Metrics) (now t : ℚ) (v : Value)
    (hlast : r.last_triggered = some t) (ht : 0 < t)
    (heval : evalExpr (buildEnv metrics now) r.condition = .ok v)
    (htruthy : truthy v = true)
    (hcool : now - t < r.cooldown_seconds) :
    monitorRuleStep metrics now r = (none, r) := by
  have hst : should_trigger r metrics now = false := by
    unfold should_trigger
    rw [heval]
    simp [htruthy, hlast, ht.ne', hcool]
  unfold monitorRuleStep
  rw [hst]
  simp

/-- Demonstration rule state for the C2 witness: the scenario rule
`cpu_high` after it triggered at time 1. -/
def cooled_rule : AlertRule :=
  { cpu_high_rule with last_triggered := some 1 }

/-- Claim C2, witness for `C2_cooldown_suppresses`: `cpu_high` triggered
at time 1, re-evaluated at time 10 on `cpu = 95` (condition truthy, 9
seconds into the 300-second cooldown) — no alert, rule unchanged. -/
theorem C2_witness :
    cooled_rule.last_triggered = some 1 ∧ (0 : ℚ) < 1
    ∧ evalExpr (buildEnv [("cpu", .num 95)] 10) cooled_rule.condition = .ok (.bool true)
    ∧ truthy (.bool true) = true
    ∧ (10 : ℚ) - 1 < cooled_rule.cooldown_seconds
    ∧ monitorRuleStep [("cpu", .num 95)] 10 cooled_rule = (none, cooled_rule) :=
  ⟨rfl, by decide, rfl, rfl, by norm_num [cooled_rule, cpu_high_rule],
    C2_cooldown_suppresses cooled_rule [("cpu", .num 95)] 10 1 (.bool true)
      rfl (by decide) rfl rfl (by norm_num [cooled_rule, cpu_high_rule])⟩

/-! ### Helper lemmas about cleanup -/

/-- The max-count trim never grows the list and returns a suffix. -/
lemma maxTrim_suffix (m : ℕ) (l : List Alert) : maxTrim m l <:+ l := by
  rw [maxTrim]
  split
  · rw [pySliceLast]
    split
    · exact List.suffix_rfl
    · exact List.drop_suffix _ _
  · exact List.suffix_rfl

/-- For a positive maximum, the max-count trim leaves at most `m` alerts. -/
lemma maxTrim_length_le (m : ℕ) (hm : m ≠ 0) (l : List Alert) :
    (maxTrim m l).length ≤ m := by
  rw [maxTrim]
  split
  · rw [pySliceLast, if_neg hm]
    simp only [List.length_drop]
    omega
  · omega

/-- With a zero maximum the trim is the identity: Python's `l[-0:]` is the
whole list. -/
lemma maxTrim_zero (l : List Alert) : maxTrim 0 l = l := by
  rw [maxTrim, pySliceLast]
  split <;> simp

/-- A trim of a list whose length is within the maximum is the identity. -/
lemma maxTrim_of_length_le {m : ℕ} {l : List Alert} (h : l.length ≤ m) :
    maxTrim m l = l := by
  rw [maxTrim, if_neg (by omega)]

/-- A suffix of a retention-filtered list passes the retention filter
unchanged. -/
lemma retentionFilter_of_suffix {cutoff : ℚ} {s l : List Alert}
    (h : s <:+ retentionFilter cutoff l) : retentionFilter cutoff s = s := by
  rw [retentionFilter]
  exact List.filter_eq_self.mpr (fun a ha => (List.mem_filter.mp (h.subset ha)).2)

/-- Cleanup returns a suffix of the retention-filtered input. -/
lemma cleanup_suffix (cutoff : ℚ) (m : ℕ) (alerts : List Alert) :
    _cleanup_old_alerts cutoff m alerts <:+ retentionFilter cutoff alerts :=
  maxTrim_suffix m _

/-- Claim C6, counterexample: with `max_alerts = 0` a fresh alert survives
cleanup — Python's `alerts[-0:]` slice is the whole list — so the stored
list is NOT bounded by the configured maximum for every value of
`maxAlerts`. -/
theorem C6_counterexample :
    _cleanup_old_alerts 0 0 [_trigger_alert cpu_high_rule [] 1]
      = [_trigger_alert cpu_high_rule [] 1]
    ∧ ¬ ((_cleanup_old_alerts 0 0 [_trigger_alert cpu_high_rule [] 1]).length ≤ 0) :=
  ⟨rfl, by decide⟩

/-- Claim C6, amended: for every POSITIVE maximum `m`, a single cleanup
pass leaves at most `m` alerts and leaves a suffix (the most recently
appended part) of the retention-filtered list; concretely, appending 8
alerts inside the retention window and cleaning up with `maxAlerts = 5`
keeps exactly the last 5 appended.  (With `maxAlerts = 0` the bound fails,
since Python's `alerts[-0:]` is the whole list.) -/
theorem C6_cleanup_bound (cutoff : ℚ) (m : ℕ) (hm : 1 ≤ m) (alerts : List Alert) :
    (_cleanup_old_alerts cutoff m alerts).length ≤ m
    ∧ _cleanup_old_alerts cutoff m alerts <:+ retentionFilter cutoff alerts
    ∧ (∀ l : List Alert, l.length = 8 → (∀ a ∈ l, cutoff < a.timestamp) →
        _cleanup_old_alerts cutoff 5 l = l.drop 3) := by
  refine ⟨maxTrim_length_le m (by omega) _, cleanup_suffix cutoff m alerts, ?_⟩
  intro l hl8 hfresh
  have hfilter : retentionFilter cutoff l = l :=
    List.filter_eq_self.mpr (fun a ha => decide_eq_true (hfresh a ha))
  rw [_cleanup_old_alerts, hfilter, maxTrim, if_pos (by omega), pySliceLast,
    if_neg (by omega), hl8]

/-- Claim C6, witness for `C6_cleanup_bound` with `maxAlerts = 5` and a
single fresh alert. -/
theorem C6_cleanup_bound_witness :
    1 ≤ 5
    ∧ ((_cleanup_old_alerts 0 5 [_trigger_alert cpu_high_rule [] 1]).length ≤ 5
        ∧ _cleanup_old_alerts 0 5 [_trigger_alert cpu_high_rule [] 1]
            <:+ retentionFilter 0 [_trigger_alert cpu_high_rule [] 1]
        ∧ (∀ l : List Alert, l.length = 8 → (∀ a ∈ l, (0 : ℚ) < a.timestamp) →
            _cleanup_old_alerts 0 5 l = l.drop 3)) :=
  ⟨by decide, C6_cleanup_bound 0 5 (by decide) [_trigger_alert cpu_high_rule [] 1]⟩

/-- Claim C7: cleanup is idempotent — at a fixed current time (hence fixed
retention cutoff) and configuration, running `_cleanup_old_alerts` twice
yields the same alert list as running it once, for every maximum
(including the degenerate `maxAlerts = 0`). -/
theorem C7_cleanup_idempotent (cutoff : ℚ) (m : ℕ) (alerts : List Alert) :
    _cleanup_old_alerts cutoff m (_cleanup_old_alerts cutoff m alerts)
      = _cleanup_old_alerts cutoff m alerts := by
  have hfilter :
      retentionFilter cutoff (_cleanup_old_alerts cutoff m alerts)
        = _cleanup_old_alerts cutoff m alerts :=
    retentionFilter_of_suffix (cleanup_suffix cutoff m alerts)
  by_cases hm : m = 0
  · subst hm
    rw [_cleanup_old_alerts, hfilter, maxTrim_zero]
  · have hlen : (_cleanup_old_alerts cutoff m alerts).length ≤ m := by
      rw [_cleanup_old_alerts]
      exact maxTrim_length_le m hm _
    rw [_cleanup_old_alerts, hfilter, maxTrim_of_length_le hlen]

/-! ### Helper lemmas about acknowledge and resolve -/

/-- When no stored alert has the id, `acknowledge_alert` returns `False`
and leaves the list unchanged. -/
lemma acknowledge_alert_not_found (alerts : List Alert) (alert_id : String)
    (h : ∀ a ∈ alerts, a.id ≠ alert_id) :
    acknowledge_alert alerts alert_id = (false, alerts) := by
  induction alerts with
  | nil => rfl
  | cons x rest ih =>
      rw [acknowledge_alert, if_neg (h x (List.mem_cons_self x rest)),
        ih (fun a ha => h a (List.mem_cons_of_mem x ha))]

/-- When no stored alert has the id, `resolve_alert` returns `False` and
leaves the list unchanged. -/
lemma resolve_alert_not_found (alerts : List Alert) (alert_id : String)
    (h : ∀ a ∈ alerts, a.id ≠ alert_id) :
    resolve_alert alerts alert_id = (false, alerts) := by
  induction alerts with
  | nil => rfl
  | cons x rest ih =>
      rw [resolve_alert, if_neg (h x (List.mem_cons_self x rest)),
        ih (fun a ha => h a (List.mem_cons_of_mem x ha))]

/-- When the first stored alert with the id sits at index `i`,
`acknowledge_alert` returns `True` and replaces exactly that entry by the
same alert with `acknowledged := true`. -/
lemma acknowledge_alert_found (alerts : List Alert) (alert_id : String) (i : ℕ)
    (h : alerts.findIdx? (fun a => a.id == alert_id) = some i) :
    ∃ a, alerts[i]? = some a ∧ a.id = alert_id
      ∧ acknowledge_alert alerts alert_id
          = (true, alerts.set i { a with acknowledged := true }) := by
  induction alerts generalizing i with
  | nil => simp at h
  | cons x rest ih =>
      rw [List.findIdx?_cons] at h
      by_cases hx : x.id = alert_id
      · rw [if_pos (by simp [hx])] at h
        obtain rfl : (0 : ℕ) = i := by simpa using h
        exact ⟨x, by simp, hx, by simp [acknowledge_alert, hx]⟩
      · rw [if_neg (by simp [hx]), List.findIdx?_succ] at h
        obtain ⟨j, hj, rfl⟩ := Option.map_eq_some'.mp h
        obtain ⟨a, ha, haid, hack⟩ := ih j hj
        exact ⟨a, by simpa using ha, haid, by simp [acknowledge_alert, hx, hack]⟩

/-- When the first stored alert with the id sits at index `i`,
`resolve_alert` returns `True` and replaces exactly that entry by the same
alert with `resolved := true`. -/
lemma resolve_alert_found (alerts : List Alert) (alert_id : String) (i : ℕ)
    (h : alerts.findIdx? (fun a => a.id == alert_id) = some i) :
    ∃ a, alerts[i]? = some a ∧ a.id = alert_id
      ∧ resolve_alert alerts alert_id
          = (true, alerts.set i { a with resolved := true }) := by
  induction alerts generalizing i with
  | nil => simp at h
  | cons x rest ih =>
      rw [List.findIdx?_cons] at h
      by_cases hx : x.id = alert_id
      · rw [if_pos (by simp [hx])] at h
        obtain rfl : (0 : ℕ) = i := by simpa using h
        exact ⟨x, by simp, hx, by simp [resolve_alert, hx]⟩
      · rw [if_neg (by simp [hx]), List.findIdx?_succ] at h
        obtain ⟨j, hj, rfl⟩ := Option.map_eq_some'.mp h
        obtain ⟨a, ha, haid, hres⟩ := ih j hj
        exact ⟨a, by simpa using ha, haid, by simp [resolve_alert, hx, hres]⟩

/-- Acknowledging twice is the same as acknowledging once: same returned
bool and same resulting list. -/
lemma acknowledge_alert_idem (alerts : List Alert) (alert_id : String) :
    acknowledge_alert (acknowledge_alert alerts alert_id).2 alert_id
      = acknowledge_alert alerts alert_id := by
  induction alerts with
  | nil => rfl
  | cons x rest ih =>
      by_cases hx : x.id = alert_id
      · simp [acknowledge_alert, hx]
      · simp only [acknowledge_alert, if_neg hx]
        simp only [acknowledge_alert, if_neg hx, ih]

/-- Resolving twice is the same as resolving once. -/
lemma resolve_alert_idem (alerts : List Alert) (alert_id : String) :
    resolve_alert (resolve_alert alerts alert_id).2 alert_id
      = resolve_alert alerts alert_id := by
  induction alerts with
  | nil => rfl
  | cons x rest ih =>
      by_cases hx : x.id = alert_id
      · simp [resolve_alert, hx]
      · simp only [resolve_alert, if_neg hx]
        simp only [resolve_alert, if_neg hx, ih]

/-- Claim C8: `acknowledge_alert` and `resolve_alert` return `False` and
leave the store unchanged when no stored alert has the id, return `True`
when one does, and are idempotent — a second call with the same id
returns the same result and leaves the store in the same state. -/
theorem C8_ack_resolve (alerts : List Alert) (alert_id : String) :
    ((∀ a ∈ alerts, a.id ≠ alert_id) →
        acknowledge_alert alerts alert_id = (false, alerts)
        ∧ resolve_alert alerts alert_id = (false, alerts))
    ∧ ((∃ a ∈ alerts, a.id = alert_id) →
        (acknowledge_alert alerts alert_id).1 = true
        ∧ (resolve_alert alerts alert_id).1 = true)
    ∧ acknowledge_alert (acknowledge_alert alerts alert_id).2 alert_id
        = acknowledge_alert alerts alert_id
    ∧ resolve_alert (resolve_alert alerts alert_id).2 alert_id
        = resolve_alert alerts alert_id := by
  refine ⟨fun h => ⟨acknowledge_alert_not_found alerts alert_id h,
      resolve_alert_not_found alerts alert_id h⟩, ?_,
    acknowledge_alert_idem alerts alert_id, resolve_alert_idem alerts alert_id⟩
  rintro ⟨a, ha, haid⟩
  have hsome : (alerts.findIdx? (fun b => b.id == alert_id)).isSome := by
    rw [List.findIdx?_isSome, List.any_eq_true]
    exact ⟨a, ha, by simp [haid]⟩
  obtain ⟨i, hi⟩ := Option.isSome_iff_exists.mp hsome
  obtain ⟨b, -, -, hack⟩ := acknowledge_alert_found alerts alert_id i hi
  obtain ⟨c, -, -, hres⟩ := resolve_alert_found alerts alert_id i hi
  rw [hack, hres]
  exact ⟨rfl, rfl⟩

/-- A demonstration alert for the C8 and C10 witnesses: the alert the
`cpu_high` scenario rule creates at time 1 (its id is `cpu_high_1`). -/
def demo_alert : Alert :=
  _trigger_alert cpu_high_rule [("cpu", .num 95)] 1

/-- Claim C8, witness for `C8_ack_resolve` on a one-alert store: a missing
id returns `False` without change; the stored id returns `True`. -/
theorem C8_ack_resolve_witness :
    (acknowledge_alert [demo_alert] "absent" = (false, [demo_alert])
        ∧ resolve_alert [demo_alert] "absent" = (false, [demo_alert]))
    ∧ ((acknowledge_alert [demo_alert] "cpu_high_1").1 = true
        ∧ (resolve_alert [demo_alert] "cpu_high_1").1 = true) :=
  ⟨(C8_ack_resolve [demo_alert] "absent").1 (by decide),
    (C8_ack_resolve [demo_alert] "cpu_high_1").2.1
      ⟨demo_alert, List.mem_singleton.mpr rfl, rfl⟩⟩

/-- Claim C10: acknowledging (resolving) by id either leaves the store
untouched (id absent) or replaces exactly the first stored alert carrying
the id by the same alert with only its `acknowledged` (`resolved`) flag
set — every other field, every other alert, and the length and order of
the list are unchanged, as expressed by `List.set` with a single-field
record update. -/
theorem C10_ack_resolve_frame (alerts : List Alert) (alert_id : String) :
    (alerts.findIdx? (fun a => a.id == alert_id) = none →
        (acknowledge_alert alerts alert_id).2 = alerts
        ∧ (resolve_alert alerts alert_id).2 = alerts)
    ∧ (∀ i, alerts.findIdx? (fun a => a.id == alert_id) = some i →
        ∃ a, alerts[i]? = some a ∧ a.id = alert_id
          ∧ (acknowledge_alert alerts alert_id).2
              = alerts.set i { a with acknowledged := true }
          ∧ (resolve_alert alerts alert_id).2
              = alerts.set i { a with resolved := true }) := by
  constructor
  · intro hnone
    have h : ∀ a ∈ alerts, a.id ≠ alert_id := by
      intro a ha
      have := List.findIdx?_eq_none_iff.mp hnone a ha
      simpa using this
    rw [acknowledge_alert_not_found alerts alert_id h,
      resolve_alert_not_found alerts alert_id h]
    exact ⟨rfl, rfl⟩
  · intro i hi
    obtain ⟨a, ha, haid, hack⟩ := acknowledge_alert_found alerts alert_id i hi
    obtain ⟨b, hb, -, hres⟩ := resolve_alert_found alerts alert_id i hi
    obtain rfl : a = b := by rw [ha] at hb; exact Option.some.inj hb
    exact ⟨a, ha, haid, by rw [hack], by rw [hres]⟩

/-- Claim C10, witness for `C10_ack_resolve_frame` on a one-alert store
with the stored id: the first (and only) entry is updated in place. -/
theorem C10_ack_resolve_frame_witness :
    ∃ a, [demo_alert][0]? = some a ∧ a.id = "cpu_high_1"
      ∧ (acknowledge_alert [demo_alert] "cpu_high_1").2
          = [demo_alert].set 0 { a with acknowledged := true }
      ∧ (resolve_alert [demo_alert] "cpu_high_1").2
          = [demo_alert].set 0 { a with resolved := true } :=
  (C10_ack_resolve_frame [demo_alert] "cpu_high_1").2 0 (by decide)

/-! ### Decimal representation: the alert id embeds `int(time.time())` as
a decimal string, so distinctness of ids reduces to properties of
`Nat.repr` (digit characters only, and injectivity), proved here. -/

/-- Decode a big-endian list of decimal digit characters, starting from an
accumulator. -/
def decodeDigits (a : ℕ) (cs : List Char) : ℕ :=
  cs.foldl (fun acc c => 10 * acc + (c.toNat - 48)) a

/-- Decoding distributes over list append. -/
lemma decodeDigits_append (a : ℕ) (xs ys : List Char) :
    decodeDigits a (xs ++ ys) = decodeDigits (decodeDigits a xs) ys := by
  simp [decodeDigits, List.foldl_append]

/-- Decoding one more digit multiplies by ten and adds the digit value. -/
lemma decodeDigits_singleton (a : ℕ) (c : Char) :
    decodeDigits a [c] = 10 * a + (c.toNat - 48) := rfl

/-- Strings with equal character data are equal. -/
lemma string_data_inj {s t : String} (h : s.data = t.data) : s = t := by
  cases s
  cases t
  exact congrArg String.mk h

/-- The character of a decimal digit carries the digit plus 48. -/
lemma digitChar_toNat (k : ℕ) (hk : k < 10) : (Nat.digitChar k).toNat = k + 48 := by
  interval_cases k <;> rfl

/-- No decimal digit character is an underscore. -/
lemma digitChar_ne_underscore (k : ℕ) (hk : k < 10) : Nat.digitChar k ≠ '_' := by
  interval_cases k <;> decide

/-- The accumulator of `Nat.toDigitsCore` is just appended to the output. -/
lemma toDigitsCore_append (b : ℕ) :
    ∀ (fuel n : ℕ) (ds : List Char),
      Nat.toDigitsCore b fuel n ds = Nat.toDigitsCore b fuel n [] ++ ds := by
  intro fuel
  induction fuel with
  | zero => intro n ds; simp [Nat.toDigitsCore]
  | succ f ih =>
      intro n ds
      simp only [Nat.toDigitsCore]
      by_cases h : n / b = 0
      · simp [h]
      · rw [if_neg h, if_neg h, ih (n / b) (Nat.digitChar (n % b) :: ds),
          ih (n / b) [Nat.digitChar (n % b)], List.append_assoc]
        rfl

/-- Every character `Nat.toDigitsCore` emits is a digit character (or came
from the accumulator). -/
lemma mem_toDigitsCore (b : ℕ) (hb : 0 < b) :
    ∀ (fuel n : ℕ) (ds : List Char) (c : Char),
      c ∈ Nat.toDigitsCore b fuel n ds →
        c ∈ ds ∨ ∃ k, k < b ∧ c = Nat.digitChar k := by
  intro fuel
  induction fuel with
  | zero => intro n ds c hc; exact Or.inl hc
  | succ f ih =>
      intro n ds c hc
      simp only [Nat.toDigitsCore] at hc
      by_cases h : n / b = 0
      · rw [if_pos h] at hc
        rcases List.mem_cons.mp hc with hc | hc
        · exact Or.inr ⟨n % b, Nat.mod_lt _ hb, hc⟩
        · exact Or.inl hc
      · rw [if_neg h] at hc
        rcases ih (n / b) (Nat.digitChar (n % b) :: ds) c hc with hc2 | hc2
        · rcases List.mem_cons.mp hc2 with hc3 | hc3
          · exact Or.inr ⟨n % b, Nat.mod_lt _ hb, hc3⟩
          · exact Or.inl hc3
        · exact Or.inr hc2

/-- Decoding the digit list produced by `Nat.toDigitsCore` (with enough
fuel) recovers the number. -/
lemma decode_toDigitsCore :
    ∀ (fuel n a : ℕ), n < fuel →
      decodeDigits a (Nat.toDigitsCore 10 fuel n [])
        = a * 10 ^ (Nat.toDigitsCore 10 fuel n []).length + n := by
  intro fuel
  induction fuel with
  | zero => intro n a h; omega
  | succ f ih =>
      intro n a h
      simp only [Nat.toDigitsCore]
      by_cases hdiv : n / 10 = 0
      · rw [if_pos hdiv]
        have hn : n < 10 := by omega
        have hmod : n % 10 = n := Nat.mod_eq_of_lt hn
        rw [hmod, decodeDigits_singleton, digitChar_toNat n hn]
        simp only [List.length_cons, List.length_nil, pow_one]
        omega
      · rw [if_neg hdiv, toDigitsCore_append 10 f (n / 10) [Nat.digitChar (n % 10)]]
        have hin : n / 10 < f := by
          have h1 : n / 10 < n := Nat.div_lt_self (by omega) (by omega)
          omega
        rw [decodeDigits_append, ih (n / 10) a hin, decodeDigits_singleton,
          digitChar_toNat (n % 10) (Nat.mod_lt _ (by omega))]
        simp only [List.length_append, List.length_cons, List.length_nil]
        rw [pow_succ, ← mul_assoc]
        generalize a * 10 ^ (Nat.toDigitsCore 10 f (n / 10) []).length = A
        omega

/-- Decoding `Nat.toDigits 10 n` recovers `n`. -/
lemma decode_toDigits (n : ℕ) : decodeDigits 0 (Nat.toDigits 10 n) = n := by
  have h := decode_toDigitsCore (n + 1) n 0 (Nat.lt_succ_self n)
  simpa [Nat.toDigits] using h

/-- `Nat.repr` is injective. -/
lemma nat_repr_inj {m n : ℕ} (h : Nat.repr m = Nat.repr n) : m = n := by
  have hd : Nat.toDigits 10 m = Nat.toDigits 10 n := congrArg String.data h
  rw [← decode_toDigits m, ← decode_toDigits n, hd]

/-- The decimal representation of a natural number contains no
underscore. -/
lemma repr_no_underscore (n : ℕ) : '_' ∉ (Nat.repr n).data := by
  intro hmem
  have hmem2 : '_' ∈ Nat.toDigitsCore 10 (n + 1) n [] := hmem
  rcases mem_toDigitsCore 10 (by omega) (n + 1) n [] '_' hmem2 with h | ⟨k, hk, hek⟩
  · simp at h
  · exact digitChar_ne_underscore k hk hek.symm

/-- Splitting at a separator character absent from both suffixes is
unambiguous. -/
lemma append_sep_inj :
    ∀ (a b s1 s2 : List Char), '_' ∉ s1 → '_' ∉ s2 →
      a ++ '_' :: s1 = b ++ '_' :: s2 → a = b ∧ s1 = s2 := by
  intro a
  induction a with
  | nil =>
      intro b s1 s2 h1 h2 h
      cases b with
      | nil => simpa using h
      | cons y bt =>
          simp only [List.nil_append, List.cons_append, List.cons.injEq] at h
          exact absurd (h.2 ▸ List.mem_append_right bt (List.mem_cons_self _ _)) h1
  | cons x at1 ih =>
      intro b s1 s2 h1 h2 h
      cases b with
      | nil =>
          simp only [List.cons_append, List.nil_append, List.cons.injEq] at h
          exact absurd (h.2 ▸ List.mem_append_right at1 (List.mem_cons_self _ _)) h2
      | cons y bt =>
          simp only [List.cons_append, List.cons.injEq] at h
          obtain ⟨hab, hs⟩ := ih bt s1 s2 h1 h2 h.2
          exact ⟨by rw [h.1, hab], hs⟩

/-- For a nonneg integer, `toString` is the `Nat.repr` of its absolute
value. -/
lemma toString_int_nonneg (i : ℤ) (h : 0 ≤ i) : toString i = Nat.repr i.toNat := by
  obtain ⟨m, rfl⟩ := Int.eq_ofNat_of_zero_le h
  rfl

/-- The truncation `pyInt` of a nonnegative rational is nonnegative. -/
lemma pyInt_nonneg {t : ℚ} (h : 0 ≤ t) : 0 ≤ pyInt t := by
  rw [pyInt, if_pos h]
  exact Int.floor_nonneg.mpr h

/-- Alert ids built from nonnegative times determine the rule name and the
whole second: the id splits unambiguously at the last underscore, because
the seconds part is a pure digit string. -/
lemma mkAlertId_inj {n1 n2 : String} {t1 t2 : ℚ} (h1 : 0 ≤ t1) (h2 : 0 ≤ t2)
    (h : mkAlertId n1 t1 = mkAlertId n2 t2) : n1 = n2 ∧ pyInt t1 = pyInt t2 := by
  have e1 : toString (pyInt t1) = Nat.repr (pyInt t1).toNat :=
    toString_int_nonneg _ (pyInt_nonneg h1)
  have e2 : toString (pyInt t2) = Nat.repr (pyInt t2).toNat :=
    toString_int_nonneg _ (pyInt_nonneg h2)
  have hdata : n1.data ++ '_' :: (Nat.repr (pyInt t1).toNat).data
      = n2.data ++ '_' :: (Nat.repr (pyInt t2).toNat).data := by
    have hd := congrArg String.data h
    simpa [mkAlertId, e1, e2, String.data_append] using hd
  obtain ⟨hn, hs⟩ := append_sep_inj n1.data n2.data _ _
    (repr_no_underscore _) (repr_no_underscore _) hdata
  have hnn : n1 = n2 := string_data_inj hn
  have hrepr : Nat.repr (pyInt t1).toNat = Nat.repr (pyInt t2).toNat :=
    string_data_inj hs
  have := nat_repr_inj hrepr
  refine ⟨hnn, ?_⟩
  have p1 := pyInt_nonneg h1
  have p2 := pyInt_nonneg h2
  omega

/-- Truncated whole seconds strictly increase across a gap of at least one
second (for nonnegative times). -/
lemma pyInt_lt_of_add_one_le {t u : ℚ} (ht : 0 ≤ t) (h : t + 1 ≤ u) :
    pyInt t < pyInt u := by
  have hu : 0 ≤ u := by linarith
  rw [pyInt, if_pos ht, pyInt, if_pos hu]
  have h1 : (⌊t⌋ : ℤ) + 1 = ⌊t + 1⌋ := (Int.floor_add_one t).symm
  have h2 : ⌊t + 1⌋ ≤ ⌊u⌋ := Int.floor_le_floor h
  omega

/-! ### Helper lemmas about the monitoring loop -/

/-- One loop pass never changes a rule's name. -/
lemma monitorRuleStep_name (metrics : Metrics) (now : ℚ) (r : AlertRule) :
    (monitorRuleStep metrics now r).2.name = r.name := by
  rw [monitorRuleStep]
  split <;> rfl

/-- One loop pass never changes a rule's cooldown. -/
lemma monitorRuleStep_cooldown (metrics : Metrics) (now : ℚ) (r : AlertRule) :
    (monitorRuleStep metrics now r).2.cooldown_seconds = r.cooldown_seconds := by
  rw [monitorRuleStep]
  split <;> rfl

/-- One loop pass emits an alert exactly for a rule whose `should_trigger`
returned `True`, and the alert is the one `_trigger_alert` builds. -/
lemma monitorRuleStep_fst_eq_some {metrics : Metrics} {now : ℚ} {r : AlertRule}
    {a : Alert} (h : (monitorRuleStep metrics now r).1 = some a) :
    should_trigger r metrics now = true ∧ a = _trigger_alert r metrics now := by
  rw [monitorRuleStep] at h
  by_cases hst : should_trigger r metrics now
  · rw [if_pos hst] at h
    exact ⟨hst, (Option.some.inj h).symm⟩
  · rw [if_neg hst] at h
    simp at h

/-- A triggered rule leaves the pass with `last_triggered = now`. -/
lemma monitorRuleStep_snd_of_trigger {metrics : Metrics} {now : ℚ} {r : AlertRule}
    (h : should_trigger r metrics now = true) :
    (monitorRuleStep metrics now r).2.last_triggered = some now := by
  rw [monitorRuleStep, if_pos h]
  rfl

/-- A non-triggered rule leaves the pass unchanged. -/
lemma monitorRuleStep_snd_of_not {metrics : Metrics} {now : ℚ} {r : AlertRule}
    (h : ¬ should_trigger r metrics now = true) :
    (monitorRuleStep metrics now r).2 = r := by
  rw [monitorRuleStep, if_neg h]

/-- A `should_trigger` that returned `True` for a rule whose
`last_triggered` was a set, nonzero timestamp certifies that the cooldown
had expired: `last_triggered + cooldown_seconds ≤ now`. -/
lemma should_trigger_cooldown {r : AlertRule} {metrics : Metrics} {now tl : ℚ}
    (h : should_trigger r metrics now = true)
    (hlast : r.last_triggered = some tl) (htl : tl ≠ 0) :
    tl + r.cooldown_seconds ≤ now := by
  rw [should_trigger] at h
  split at h
  · simp at h
  · rename_i v heq
    by_cases htr : truthy v = true
    · rw [if_pos htr] at h
      simp only [hlast] at h
      by_cases hc : now - tl < r.cooldown_seconds
      · rw [if_pos ⟨htl, hc⟩] at h
        simp at h
      · linarith [not_lt.mp hc]
    · rw [if_neg htr] at h
      simp at h

/-- The updated rule list of one pass, elementwise. -/
lemma evalRulesStep_snd_getElem (metrics : Metrics) (now : ℚ)
    (rules : List AlertRule) (j : ℕ) (hj : j < rules.length) :
    (evalRulesStep metrics now rules).2.get
        ⟨j, by simpa [evalRulesStep] using hj⟩
      = (monitorRuleStep metrics now (rules.get ⟨j, hj⟩)).2 := by
  simp [evalRulesStep]

/-- Every alert a run produces originates from some rule index `j` and
trigger time `t > 0`; its id is `mkAlertId` of that rule's name and `t`,
and `t` lies beyond the cooldown window of the rule state the run started
from. -/
lemma runSteps_origin (steps : List (ℚ × Metrics)) :
    ∀ rules : List AlertRule,
      (∀ s ∈ steps, 0 < s.1) →
      (∀ r ∈ rules, 1 ≤ r.cooldown_seconds) →
      ∀ a ∈ runSteps steps rules,
        ∃ (j : ℕ) (hj : j < rules.length) (t : ℚ), 0 < t ∧
          a.id = mkAlertId (rules.get ⟨j, hj⟩).name t ∧
          ∀ tl, (rules.get ⟨j, hj⟩).last_triggered = some tl → tl ≠ 0 →
            tl + (rules.get ⟨j, hj⟩).cooldown_seconds ≤ t := by
  induction steps with
  | nil =>
      intro rules _ _ a ha
      simp [runSteps] at ha
  | cons s rest ih =>
      obtain ⟨now, m⟩ := s
      intro rules htimes hcool a ha
      rw [runSteps] at ha
      rcases List.mem_append.mp ha with hhead | htail
      · obtain ⟨r, hr, hfr⟩ := List.mem_filterMap.mp hhead
        obtain ⟨hst, rfl⟩ := monitorRuleStep_fst_eq_some hfr
        obtain ⟨j, hj, hrj⟩ := List.mem_iff_getElem.mp hr
        have hnow : (0 : ℚ) < now := htimes (now, m) (List.mem_cons_self _ _)
        refine ⟨j, hj, now, hnow, ?_, ?_⟩
        · show (_trigger_alert r m now).id = _
          rw [_trigger_alert]
          have : rules.get ⟨j, hj⟩ = r := hrj
          rw [this]
        · intro tl hlast htl
          have hget : rules.get ⟨j, hj⟩ = r := hrj
          rw [hget] at hlast ⊢
          exact should_trigger_cooldown hst hlast htl
      · have hlen : (evalRulesStep m now rules).2.length = rules.length := by
          simp [evalRulesStep]
        have hcool2 : ∀ r2 ∈ (evalRulesStep m now rules).2, 1 ≤ r2.cooldown_seconds := by
          intro r2 hr2
          obtain ⟨r, hr, hrr⟩ := List.mem_map.mp hr2
          rw [← hrr, monitorRuleStep_cooldown]
          exact hcool r hr
        obtain ⟨j, hj, t, ht, hid, hbound⟩ :=
          ih (evalRulesStep m now rules).2
            (fun s hs => htimes s (List.mem_cons_of_mem _ hs)) hcool2 a htail
        have hj2 : j < rules.length := by omega
        have hrj : (evalRulesStep m now rules).2.get ⟨j, hj⟩
            = (monitorRuleStep m now (rules.get ⟨j, hj2⟩)).2 := by
          simpa using evalRulesStep_snd_getElem m now rules j hj2
        refine ⟨j, hj2, t, ht, ?_, ?_⟩
        · rw [hid, hrj, monitorRuleStep_name]
        · intro tl hlast htl
          rw [hrj] at hbound
          by_cases htrig : should_trigger (rules.get ⟨j, hj2⟩) m now = true
          · have hnow : (0 : ℚ) < now := htimes (now, m) (List.mem_cons_self _ _)
            have h1 := hbound now (monitorRuleStep_snd_of_trigger htrig) hnow.ne'
            rw [monitorRuleStep_cooldown] at h1
            have h2 : tl + (rules.get ⟨j, hj2⟩).cooldown_seconds ≤ now :=
              should_trigger_cooldown htrig hlast htl
            have h3 : 1 ≤ (rules.get ⟨j, hj2⟩).cooldown_seconds :=
              hcool _ (List.get_mem rules j hj2)
            linarith
          · rw [monitorRuleStep_snd_of_not htrig] at hbound
            exact hbound tl hlast htl

/-- Pairwise distinctness of alert ids over a run, from a start state in
which every set `last_triggered` is positive. -/
lemma runSteps_ids_unique_aux (steps : List (ℚ × Metrics)) :
    ∀ rules : List AlertRule,
      (rules.map AlertRule.name).Nodup →
      (∀ r ∈ rules, 1 ≤ r.cooldown_seconds) →
      (∀ r ∈ rules, ∀ tl, r.last_triggered = some tl → 0 < tl) →
      (∀ s ∈ steps, 0 < s.1) →
      (runSteps steps rules).Pairwise (fun a b => a.id ≠ b.id) := by
  induction steps with
  | nil =>
      intro rules _ _ _ _
      simp [runSteps]
  | cons s rest ih =>
      obtain ⟨now, m⟩ := s
      intro rules hnames hcool hpos htimes
      have hnow : (0 : ℚ) < now := htimes (now, m) (List.mem_cons_self _ _)
      have htimes2 : ∀ s ∈ rest, 0 < s.1 :=
        fun s hs => htimes s (List.mem_cons_of_mem _ hs)
      have hcool2 : ∀ r2 ∈ (evalRulesStep m now rules).2, 1 ≤ r2.cooldown_seconds := by
        intro r2 hr2
        simp only [evalRulesStep] at hr2
        obtain ⟨r, hr, rfl⟩ := List.mem_map.mp hr2
        rw [monitorRuleStep_cooldown]
        exact hcool r hr
      have hlen : (evalRulesStep m now rules).2.length = rules.length := by
        simp [evalRulesStep]
      rw [runSteps, List.pairwise_append]
      refine ⟨?_, ?_, ?_⟩
      · show ((evalRulesStep m now rules).1).Pairwise _
        simp only [evalRulesStep]
        refine List.Pairwise.filterMap _ ?_ (List.pairwise_map.mp hnames)
        intro r r2 hne b hb b2 hb2
        obtain ⟨-, rfl⟩ := monitorRuleStep_fst_eq_some (Option.mem_def.mp hb)
        obtain ⟨-, rfl⟩ := monitorRuleStep_fst_eq_some (Option.mem_def.mp hb2)
        intro heq
        exact hne (mkAlertId_inj hnow.le hnow.le heq).1
      · apply ih
        · have hpres : (evalRulesStep m now rules).2.map AlertRule.name
              = rules.map AlertRule.name := by
            simp only [evalRulesStep, List.map_map]
            exact List.map_congr_left
              (fun r _ => by simp [Function.comp, monitorRuleStep_name])
          rw [hpres]
          exact hnames
        · exact hcool2
        · intro r2 hr2 tl hlast
          simp only [evalRulesStep] at hr2
          obtain ⟨r, hr, rfl⟩ := List.mem_map.mp hr2
          by_cases htrig : should_trigger r m now = true
          · rw [monitorRuleStep_snd_of_trigger htrig] at hlast
            obtain rfl := Option.some.inj hlast
            exact hnow
          · rw [monitorRuleStep_snd_of_not htrig] at hlast
            exact hpos r hr tl hlast
        · exact htimes2
      · intro a ha b hb
        simp only [evalRulesStep] at ha
        obtain ⟨r, hrmem, hfr⟩ := List.mem_filterMap.mp ha
        obtain ⟨hst, rfl⟩ := monitorRuleStep_fst_eq_some hfr
        obtain ⟨k, hk, hrk⟩ := List.mem_iff_getElem.mp hrmem
        obtain ⟨j, hj, t, ht, hid, hbound⟩ :=
          runSteps_origin rest (evalRulesStep m now rules).2 htimes2 hcool2 b hb
        have hj2 : j < rules.length := by omega
        have hrj : (evalRulesStep m now rules).2.get ⟨j, hj⟩
            = (monitorRuleStep m now (rules.get ⟨j, hj2⟩)).2 := by
          simpa using evalRulesStep_snd_getElem m now rules j hj2
        rw [hrj, monitorRuleStep_name] at hid
        rw [hrj] at hbound
        intro heq
        rw [hid] at heq
        have hinj := mkAlertId_inj hnow.le ht.le heq
        have hname : r.name = (rules.get ⟨j, hj2⟩).name := hinj.1
        have hkj : k = j := by
          have hk2 : k < (rules.map AlertRule.name).length := by simpa using hk
          have hj3 : j < (rules.map AlertRule.name).length := by simpa using hj2
          have hmapk : (rules.map AlertRule.name).get ⟨k, hk2⟩ = r.name := by
            simp [hrk]
          have hmapj : (rules.map AlertRule.name).get ⟨j, hj3⟩
              = (rules.get ⟨j, hj2⟩).name := by
            simp
          have hfin : (⟨k, hk2⟩ : Fin (rules.map AlertRule.name).length) = ⟨j, hj3⟩ :=
            hnames.get_inj_iff.mp (by rw [hmapk, hmapj, hname])
          exact congrArg Fin.val hfin
        have hgetr : rules.get ⟨j, hj2⟩ = r := by
          subst hkj
          simpa using hrk
        have htrig2 : should_trigger (rules.get ⟨j, hj2⟩) m now = true := by
          rw [hgetr]
          exact hst
        have hb1 := hbound now (monitorRuleStep_snd_of_trigger htrig2) hnow.ne'
        rw [monitorRuleStep_cooldown] at hb1
        have hcd : 1 ≤ (rules.get ⟨j, hj2⟩).cooldown_seconds :=
          hcool _ (List.get_mem rules j hj2)
        have hlt : pyInt now < pyInt t :=
          pyInt_lt_of_add_one_le hnow.le (by linarith)
        omega

/-- Claim C9: over any run of the monitoring loop starting at process
initialization (all `last_triggered` unset), with pairwise-distinct rule
names, every cooldown at least one second, and positive step times, the
ids of all created alerts are pairwise distinct.  The default rule set
satisfies the name and cooldown hypotheses (its cooldowns are all at
least 30); distinctness holds because an id splits unambiguously into the
rule name and the whole trigger second, rules with different names give
different name parts, and a same-rule re-trigger is at least one full
cooldown (hence at least one whole second) later. -/
theorem C9_alert_ids_unique (rules : List AlertRule) (steps : List (ℚ × Metrics))
    (hnames : (rules.map AlertRule.name).Nodup)
    (hcool : ∀ r ∈ rules, 1 ≤ r.cooldown_seconds)
    (hstart : ∀ r ∈ rules, r.last_triggered = none)
    (htimes : ∀ s ∈ steps, 0 < s.1) :
    (runSteps steps rules).Pairwise (fun a b => a.id ≠ b.id) :=
  runSteps_ids_unique_aux steps rules hnames hcool
    (fun r hr tl hlast => absurd (hlast ▸ hstart r hr) (by simp)) htimes

/-- A two-step demonstration run for the C9 witness: the `cpu_high` rule
evaluated on `cpu = 95` at times 1 and 400 (past the 300-second
cooldown). -/
def demoSteps : List (ℚ × Metrics) :=
  [((1 : ℚ), [("cpu", Value.num 95)]), ((400 : ℚ), [("cpu", Value.num 95)])]

/-- The demonstration rule triggers at time 1 from the initial state. -/
lemma demo_st1 : should_trigger cpu_high_rule [("cpu", Value.num 95)] 1 = true := rfl

/-- The demonstration rule triggers again at time 400, its 300-second
cooldown having expired. -/
lemma demo_st2 : should_trigger (trigger cpu_high_rule 1) [("cpu", Value.num 95)] 400 = true := by
  simp [should_trigger, trigger, cpu_high_rule, buildEnv, evalExpr, envLookup, truthy,
    bind, Except.bind]
  norm_num

/-- The demonstration run really creates two alerts, with ids `cpu_high_1`
and `cpu_high_400` — the uniqueness claim is not vacuous. -/
lemma runSteps_demo :
    (runSteps demoSteps [cpu_high_rule]).map Alert.id = ["cpu_high_1", "cpu_high_400"] := by
  rw [demoSteps, runSteps, runSteps, runSteps]
  simp only [evalRulesStep, List.filterMap, List.map, monitorRuleStep, demo_st1, demo_st2,
    if_true, List.append_nil]
  norm_num [_trigger_alert, mkAlertId, pyInt, cpu_high_rule, trigger]
  exact ⟨rfl, rfl⟩

/-- The ten default rules of the program satisfy the hypotheses of the id
uniqueness theorem: pairwise-distinct names, every cooldown at least one
second (they are all at least 30), and `last_triggered` initially unset. -/
lemma default_rules_satisfy_uniqueness_hypotheses :
    (default_rules.map AlertRule.name).Nodup
    ∧ (∀ r ∈ default_rules, 1 ≤ r.cooldown_seconds)
    ∧ (∀ r ∈ default_rules, r.last_triggered = none) :=
  ⟨by decide, by decide, by decide⟩

/-- Claim C9, witness for `C9_alert_ids_unique` on the demonstration run
(which creates the two alerts `cpu_high_1` and `cpu_high_400`, see
`runSteps_demo`). -/
theorem C9_alert_ids_unique_witness :
    ([cpu_high_rule].map AlertRule.name).Nodup
    ∧ (∀ r ∈ [cpu_high_rule], 1 ≤ r.cooldown_seconds)
    ∧ (∀ r ∈ [cpu_high_rule], r.last_triggered = none)
    ∧ (∀ s ∈ demoSteps, 0 < s.1)
    ∧ (runSteps demoSteps [cpu_high_rule]).Pairwise (fun a b => a.id ≠ b.id) :=
  ⟨by decide, by decide, by decide, by decide,
    C9_alert_ids_unique [cpu_high_rule] demoSteps (by decide) (by decide) (by decide)
      (by decide)⟩

end AlertBench
